import Mathlib

/-!
Verification of the reconciliations repository: a shallow embedding of the
classification, parsing, recurring-tracking and sheet-layout logic of
`src/reconciliations/api.py`, `src/reconciliations/writer.py` and
`src/cli.py`, with theorems settling the frozen claims about it.

Modelling conventions: Python floats become rationals, Python dicts become
association lists (keys unique, insertion order preserved), Python
exceptions become `Except`/`Option` results, and mutation of a dataclass
becomes construction of an updated value.
-/

/-- Calendar date as produced by `datetime.date`: year, month, day. -/
structure Date where
  year : Nat
  month : Nat
  day : Nat
  deriving DecidableEq

/-- `ExpenseRecord` from `api.py`: a single transaction under reconciliation. -/
structure ExpenseRecord where
  date : Date
  description : String
  amount : ℚ
  source_file : Option String := none
  category : Option String := none
  is_income : Bool := false
  is_misc : Bool := false
  is_payment : Bool := false
  recurring_key : Option String := none
  deriving DecidableEq

/-- `ReconciliationSession.mark_as_income`: sets `is_income` and clears the
other two flags. -/
def mark_as_income (r : ExpenseRecord) : ExpenseRecord :=
  { r with is_income := true, is_misc := false, is_payment := false }

/-- `ReconciliationSession.mark_as_miscellaneous`: sets only `is_misc`. -/
def mark_as_miscellaneous (r : ExpenseRecord) : ExpenseRecord :=
  { r with is_misc := true }

/-- `ReconciliationSession.mark_as_payment`: sets only `is_payment`. -/
def mark_as_payment (r : ExpenseRecord) : ExpenseRecord :=
  { r with is_payment := true }

/-- `ReconciliationSession.classify_expense`: assigns the category only. -/
def classify_expense (r : ExpenseRecord) (category : String) : ExpenseRecord :=
  { r with category := some category }

/-- The offending records collected by `cli._check_income_flags`:
records flagged as income whose amount is not negative. -/
def incomeFlagIssues (expenses : List ExpenseRecord) : List ExpenseRecord :=
  expenses.filter (fun r => r.is_income && decide (0 ≤ r.amount))

/-- `cli._check_income_flags`: passes exactly when no record is flagged as
income with a non-negative amount. -/
def check_income_flags (expenses : List ExpenseRecord) : Bool :=
  (incomeFlagIssues expenses).isEmpty

/-- Characters removed by Python `str.strip()` with no argument. -/
def isStripSpace (c : Char) : Bool :=
  c.toNat = 32 || c.toNat = 9 || c.toNat = 10 || c.toNat = 13 || c.toNat = 11 || c.toNat = 12

/-- Python `str.strip()` on the character list of a string. -/
def trimChars (l : List Char) : List Char :=
  ((l.dropWhile isStripSpace).reverse.dropWhile isStripSpace).reverse

/-- Python `str.strip()`. -/
def trimStr (s : String) : String := String.mk (trimChars s.data)

/-- Python `str.lower()` on the ASCII names this program compares. -/
def lowerStr (s : String) : String := String.mk (s.data.map Char.toLower)

/-- Reserved category names from `cli.py` (`RESERVED_CATEGORIES`). -/
def RESERVED_CATEGORIES : List String := ["Income", "Miscellaneous", "Payment"]

/-- The reserved-name test applied by `cli._load_config` to each configured
category: a case-insensitive comparison against `RESERVED_CATEGORIES`. -/
def isReservedName (name : String) : Bool :=
  RESERVED_CATEGORIES.any (fun reserved => lowerStr name == lowerStr reserved)

/-- The category-list handling of `cli._load_config`: keep the truthy
(non-empty) raw entries, strip them, then reject the first one whose name is
reserved.  The error value carries the offending name (`click.BadParameter`
in the source). -/
def load_config_categories (items : List String) : Except String (List String) :=
  let categories := (items.filter (fun item => !(item == ""))).map (fun item => trimStr item)
  match categories.find? (fun name => isReservedName name) with
  | some name => Except.error name
  | none => Except.ok categories

/-- Numeric value of a decimal digit character. -/
def digitVal (c : Char) : Nat := c.toNat - 48

/-- Decimal digit character for a value below ten. -/
def digitChar (d : Nat) : Char :=
  match d with
  | 0 => '0' | 1 => '1' | 2 => '2' | 3 => '3' | 4 => '4'
  | 5 => '5' | 6 => '6' | 7 => '7' | 8 => '8' | 9 => '9'
  | _ => '*'

/-- Value of a big-endian list of decimal digit characters. -/
def charsToNat (l : List Char) : Nat := l.foldl (fun a c => 10 * a + digitVal c) 0

/-- All characters are decimal digits. -/
def allDigits (l : List Char) : Bool := l.all (fun c => c.isDigit)

/-- Split a character list on a separator character, keeping empty pieces,
as the float-literal grammar and the `strptime` format literals do. -/
def splitOnChar (c : Char) : List Char → List (List Char)
  | [] => [[]]
  | x :: xs =>
    match splitOnChar c xs with
    | [] => [[x]]
    | h :: t => if x = c then [] :: h :: t else (x :: h) :: t

/-- Lowercasing of a character list, for the case-insensitive non-finite
spellings of `float()`. -/
def lowerChars (l : List Char) : List Char := l.map Char.toLower

/-- Exponent-marker normalization: `float()` treats `e` and `E` alike, so
`E` is mapped to `e` before splitting the literal. -/
def normalizeE (l : List Char) : List Char := l.map (fun c => if c = 'E' then 'e' else c)

/-- A digit run as accepted by Python float literals: decimal digits with
single grouping underscores allowed only between digits (`1_234` is
accepted; `_1`, `1_` and `1__2` are not). -/
def digitRunOk : List Char → Bool
  | [] => false
  | [c] => c.isDigit
  | c :: '_' :: r => c.isDigit && digitRunOk r
  | c :: r => c.isDigit && digitRunOk r

/-- The digits of a run with the grouping underscores removed. -/
def runDigits (l : List Char) : List Char := l.filter (fun c => !(c == '_'))

/-- Mantissa of a float literal: digits with an optional fractional part
and at least one digit overall (`5`, `5.`, `.5`, `5.25`, `1_000.5`). -/
def pyMantissa (m : List Char) : Option ℚ :=
  match splitOnChar '.' m with
  | [ip] => if digitRunOk ip then some ((charsToNat (runDigits ip) : ℚ)) else none
  | [ip, fp] =>
    if ip = [] then
      if digitRunOk fp then
        some ((charsToNat (runDigits fp) : ℚ) / (10 : ℚ) ^ (runDigits fp).length)
      else none
    else if digitRunOk ip then
      if fp = [] then some ((charsToNat (runDigits ip) : ℚ))
      else if digitRunOk fp then
        some ((charsToNat (runDigits ip) : ℚ) +
          (charsToNat (runDigits fp) : ℚ) / (10 : ℚ) ^ (runDigits fp).length)
      else none
    else none
  | _ => none

/-- Exponent of a float literal: an optional sign and a digit run. -/
def pyExpVal (ex : List Char) : Option Int :=
  match ex with
  | '+' :: r => if digitRunOk r then some ((charsToNat (runDigits r) : Int)) else none
  | '-' :: r => if digitRunOk r then some (-(charsToNat (runDigits r) : Int)) else none
  | r => if digitRunOk r then some ((charsToNat (runDigits r) : Int)) else none

/-- Unsigned finite float literal: a mantissa with an optional exponent. -/
def pyNumber (l : List Char) : Option ℚ :=
  match splitOnChar 'e' (normalizeE l) with
  | [m] => pyMantissa m
  | [m, ex] =>
    match pyMantissa m, pyExpVal ex with
    | some b, some k => some (b * (10 : ℚ) ^ k)
    | _, _ => none
  | _ => none

/-- The value of Python `float()`: a finite value (embedded in ℚ), a
signed infinity, or nan. -/
inductive PyFloat where
  | finite (q : ℚ)
  | inf (neg : Bool)
  | nan
  deriving DecidableEq

/-- Whether a float value is finite. -/
def PyFloat.isFinite : PyFloat → Bool
  | PyFloat.finite _ => true
  | _ => false

/-- Negation of a float value (the sign of nan is not observable). -/
def pyNeg : PyFloat → PyFloat
  | PyFloat.finite q => PyFloat.finite (-q)
  | PyFloat.inf b => PyFloat.inf (!b)
  | PyFloat.nan => PyFloat.nan

/-- The unsigned alternatives of `float()`: a finite literal, or one of the
case-insensitive non-finite spellings `inf`, `infinity` and `nan`, which
are accepted WITHOUT error.  The two alternatives have disjoint domains, so
the order of the checks is immaterial. -/
def pyUnsigned (v : List Char) : Option PyFloat :=
  match pyNumber v with
  | some q => some (PyFloat.finite q)
  | none =>
    if lowerChars v = "inf".data ∨ lowerChars v = "infinity".data then some (PyFloat.inf false)
    else if lowerChars v = "nan".data then some PyFloat.nan
    else none

/-- Optional sign in front of a `float()` value. -/
def pySigned : List Char → Option PyFloat
  | '-' :: r => (pyUnsigned r).map pyNeg
  | '+' :: r => pyUnsigned r
  | r => pyUnsigned r

/-- Python `float()` on an ASCII string: surrounding whitespace is
stripped, then an optionally signed finite literal or non-finite spelling
is parsed; `none` models the `ValueError`.  (Unicode whitespace and
digits, which `float()` also accepts, do not occur in the ASCII strings
this program handles.) -/
def pythonFloat (l : List Char) : Option PyFloat := pySigned (trimChars l)

/-- Comma stripping from `ReconciliationSession._parse_amount`
(`value.replace(",", "")`). -/
def stripCommas (l : List Char) : List Char := l.filter (fun c => !(c == ','))

/-- Parenthesis normalization from `_parse_amount`: a value enclosed in an
outer pair of parentheses becomes a minus sign followed by the enclosed
characters. -/
def parenNormalize (l : List Char) : List Char :=
  if l.head? = some '(' ∧ l.getLast? = some ')' then '-' :: (l.drop 1).dropLast else l

/-- `ReconciliationSession._parse_amount` in full: strip commas, apply the
accounting-parenthesis convention, then call `float()` on the result.
`none` models the `ValueError`; a non-finite result is returned without
error. -/
def parse_amount_full (value : String) : Option PyFloat :=
  pythonFloat (parenNormalize (stripCommas value.data))

/-- `_parse_amount` as seen by the rational-valued record pipeline:
`ExpenseRecord.amount` is embedded in ℚ, which has no non-finite values,
so the pipeline reads the finite results of `_parse_amount`.  Rows whose
amount is a non-finite spelling (the program would store inf/nan in the
float-typed field) are outside this ℚ embedding. -/
def parse_amount (value : String) : Option ℚ :=
  match parse_amount_full value with
  | some (PyFloat.finite q) => some q
  | _ => none

/-- Big-endian decimal digit characters of a positive number; the first
argument is recursion fuel (the number itself suffices). -/
def natCharsAux (fuel : Nat) (n : Nat) : List Char :=
  match fuel with
  | 0 => []
  | fuel + 1 => if n = 0 then [] else natCharsAux fuel (n / 10) ++ [digitChar (n % 10)]

/-- Big-endian decimal digit characters of a number (empty for zero). -/
def natChars (n : Nat) : List Char := natCharsAux n n

/-- Zero-pad a digit string on the left to the given width, as `strftime`
zero-padded directives do. -/
def padZero (width : Nat) (l : List Char) : List Char :=
  List.replicate (width - l.length) '0' ++ l

/-- Leap-year rule used by `datetime`. -/
def isLeapYear (y : Nat) : Bool :=
  (y % 4 == 0 && y % 100 != 0) || (y % 400 == 0)

/-- Days in a month per `datetime`; zero for an invalid month number. -/
def daysInMonth (y m : Nat) : Nat :=
  if m = 2 then (if isLeapYear y then 29 else 28)
  else if m = 4 ∨ m = 6 ∨ m = 9 ∨ m = 11 then 30
  else if m = 1 ∨ m = 3 ∨ m = 5 ∨ m = 7 ∨ m = 8 ∨ m = 10 ∨ m = 12 then 31
  else 0

/-- Construction of a `datetime.date`: the `ValueError` range checks of the
constructor (year within `MINYEAR..MAXYEAR`, month `1..12`, day valid for
the month). -/
def mkValidDate (y m d : Nat) : Option Date :=
  if 1 ≤ y ∧ y ≤ 9999 ∧ 1 ≤ m ∧ m ≤ 12 ∧ 1 ≤ d ∧ d ≤ daysInMonth y m then
    some { year := y, month := m, day := d }
  else none

/-- `strptime` with format `%m/%d/%Y`: one or two digits for month and day,
exactly four digits for the year, the whole string consumed, then the
`datetime.date` validity checks. -/
def parse_mdY (l : List Char) : Option Date :=
  match splitOnChar '/' l with
  | [ms, ds, ys] =>
    if (1 ≤ ms.length ∧ ms.length ≤ 2) ∧ allDigits ms
        ∧ (1 ≤ ds.length ∧ ds.length ≤ 2) ∧ allDigits ds
        ∧ ys.length = 4 ∧ allDigits ys then
      mkValidDate (charsToNat ys) (charsToNat ms) (charsToNat ds)
    else none
  | _ => none

/-- `strptime` with format `%Y-%m-%d`. -/
def parse_Ymd (l : List Char) : Option Date :=
  match splitOnChar '-' l with
  | [ys, ms, ds] =>
    if ys.length = 4 ∧ allDigits ys
        ∧ (1 ≤ ms.length ∧ ms.length ≤ 2) ∧ allDigits ms
        ∧ (1 ≤ ds.length ∧ ds.length ≤ 2) ∧ allDigits ds then
      mkValidDate (charsToNat ys) (charsToNat ms) (charsToNat ds)
    else none
  | _ => none

/-- The errors raised during parsing, each carrying the offending raw
string (`ValueError` messages in the source). -/
inductive ParseErr where
  | badDate (raw : String)
  | badAmount (raw : String)
  deriving DecidableEq

/-- `ReconciliationSession._parse_date`: try `%m/%d/%Y` then `%Y-%m-%d`,
first successful parse wins; neither matching raises the error naming the
raw value. -/
def parse_date (value : String) : Except ParseErr Date :=
  match parse_mdY value.data with
  | some d => Except.ok d
  | none =>
    match parse_Ymd value.data with
    | some d => Except.ok d
    | none => Except.error (ParseErr.badDate value)

/-- `strftime` rendering in format `%m/%d/%Y` (zero-padded fields). -/
def format_mdY (d : Date) : List Char :=
  padZero 2 (natChars d.month) ++
    ('/' :: (padZero 2 (natChars d.day) ++ ('/' :: padZero 4 (natChars d.year))))

/-- `strftime` rendering in format `%Y-%m-%d` (zero-padded fields). -/
def format_Ymd (d : Date) : List Char :=
  padZero 4 (natChars d.year) ++
    ('-' :: (padZero 2 (natChars d.month) ++ ('-' :: padZero 2 (natChars d.day))))

/-- One data row of a CSV file, after `csv.DictReader` keyed extraction:
the raw `Date`, `Description` and `Amount` fields (missing columns give
empty strings). -/
structure CsvRow where
  date : String
  description : String
  amount : String
  deriving DecidableEq

/-- `ReconciliationSession._parse_csv`: convert each row of one file into an
expense record; the first malformed date or amount aborts the file with an
error and no records. -/
def parse_csv (csv_path : String) : List CsvRow → Except ParseErr (List ExpenseRecord)
  | [] => Except.ok []
  | row :: rest =>
    match parse_date (trimStr row.date) with
    | Except.error e => Except.error e
    | Except.ok date_obj =>
      match parse_amount (trimStr row.amount) with
      | none => Except.error (ParseErr.badAmount (trimStr row.amount))
      | some amount =>
        match parse_csv csv_path rest with
        | Except.error e => Except.error e
        | Except.ok records =>
          Except.ok ({ date := date_obj, description := trimStr row.description,
                       amount := amount, source_file := some csv_path } :: records)

/-- `ReconciliationSession.load_transactions`: extend the session expense
list file by file; a file that fails to parse propagates its error, leaving
the records of the files already processed in the session. -/
def load_transactions (expenses : List ExpenseRecord) :
    List (String × List CsvRow) → List ExpenseRecord × Option ParseErr
  | [] => (expenses, none)
  | (csv_path, rows) :: rest =>
    match parse_csv csv_path rows with
    | Except.error e => (expenses, some e)
    | Except.ok records => load_transactions (expenses ++ records) rest

/-- Python truthiness of `e.recurring_key` as tested by
`BudgetSheetWriter.populate` and `build_recurring_report`: a present,
non-empty string. -/
def hasRecurringKey (e : ExpenseRecord) : Bool :=
  match e.recurring_key with
  | none => false
  | some k => !(k == "")

/-- Row anchors of `BudgetSheetWriter.populate` (0-based, as in
`xlsxwriter`). -/
def starting_misc_row : Nat := 6

/-- Recurring-region anchor row of `populate`. -/
def starting_recurring_row : Nat := 6

/-- Purchases-region anchor row of `populate`. -/
def starting_purchases_row : Nat := 4

/-- The state threaded through the row-writing loop of
`BudgetSheetWriter.populate`: the running income-formula terms, the next
free row of each growing region, and the data rows written so far (row
number paired with the cell contents). -/
structure SheetState where
  total_income_terms : List ℚ
  misc_row : Nat
  recurring_row : Nat
  purchases_row : Nat
  miscRows : List (Nat × String × ℚ)
  recRows : List (Nat × String × ℚ)
  purRows : List (Nat × Date × Option String × String × ℚ)
  deriving DecidableEq

/-- The sheet state before any expense is processed. -/
def initSheet : SheetState :=
  { total_income_terms := [], misc_row := starting_misc_row,
    recurring_row := starting_recurring_row, purchases_row := starting_purchases_row,
    miscRows := [], recRows := [], purRows := [] }

/-- One iteration of the `for e in expenses` loop of `populate`: payments
are skipped, income accumulates into the formula, then misc, recurring and
purchase rows are written in that order of checks. -/
def populateStep (st : SheetState) (e : ExpenseRecord) : SheetState :=
  if e.is_payment then st
  else if e.is_income then
    { st with total_income_terms := st.total_income_terms ++ [e.amount] }
  else if e.is_misc then
    { st with miscRows := st.miscRows ++ [(st.misc_row, e.description, e.amount)],
              misc_row := st.misc_row + 1 }
  else if hasRecurringKey e then
    { st with recRows := st.recRows ++ [(st.recurring_row, e.recurring_key.getD "", e.amount)],
              recurring_row := st.recurring_row + 1 }
  else
    { st with purRows := st.purRows ++ [(st.purchases_row, e.date, e.category, e.description, e.amount)],
              purchases_row := st.purchases_row + 1 }

/-- The row-writing loop of `BudgetSheetWriter.populate` over the whole
expense list. -/
def populate (expenses : List ExpenseRecord) : SheetState :=
  expenses.foldl populateStep initSheet

/-- Content of a region total cell: either a SUM formula over a row range
in one column, or a literal number. -/
inductive TotalVal where
  | sumRange (startRow endRow col : Nat)
  | lit (q : ℚ)
  deriving DecidableEq

/-- The cells written by one call of the inner `write_total` helper of
`populate`: the label cell and the total cell with its content. -/
structure TotalWrite where
  labelRow : Nat
  labelCol : Nat
  cellRow : Nat
  cellCol : Nat
  value : TotalVal
  deriving DecidableEq

/-- The inner `write_total(row, col, start_row, col_increase_amt)` helper of
`populate`: writes the label at `(row, col)` and, in the column shifted by
`col_increase_amt`, a SUM formula from the anchor row to `row - 1` when some
data row was written (`row != start_row`), else the literal `0`. -/
def write_total (row col start_row col_increase_amt : Nat) : TotalWrite :=
  { labelRow := row, labelCol := col, cellRow := row, cellCol := col + col_increase_amt,
    value :=
      if row ≠ start_row then
        TotalVal.sumRange start_row (row - 1) (col + col_increase_amt)
      else TotalVal.lit 0 }

/-- The recurring-region total written by `populate`. -/
def recurring_total (expenses : List ExpenseRecord) : TotalWrite :=
  write_total (populate expenses).recurring_row 1 starting_recurring_row 1

/-- The miscellaneous-region total written by `populate`. -/
def misc_total (expenses : List ExpenseRecord) : TotalWrite :=
  write_total (populate expenses).misc_row 4 starting_misc_row 1

/-- The purchases-region total written by `populate`. -/
def purchases_total (expenses : List ExpenseRecord) : TotalWrite :=
  write_total (populate expenses).purchases_row 8 starting_purchases_row 3

/-- The commit step of `cli.cli`: the income-flag validation blocks the
workbook write; a passing list is written via `populate`. -/
def cli_commit (expenses : List ExpenseRecord) : Option SheetState :=
  if check_income_flags expenses then some (populate expenses) else none

/-- The four sheet sections a record can be placed into. -/
inductive SheetSection where
  | regular
  | income
  | misc
  | recurring
  deriving DecidableEq

/-- The section a record lands in under the branch order of the `populate`
loop; `none` for payment-flagged records, which are skipped. -/
def sectionOf (e : ExpenseRecord) : Option SheetSection :=
  if e.is_payment then none
  else if e.is_income then some SheetSection.income
  else if e.is_misc then some SheetSection.misc
  else if hasRecurringKey e then some SheetSection.recurring
  else some SheetSection.regular

/-- The section predicates in the order stated by the claim (spec section
4.4): Regular, Income, Miscellaneous, Recurring. -/
def claimSectionOrder : List (SheetSection × (ExpenseRecord → Bool)) :=
  [(SheetSection.regular, fun e => !e.is_income && !e.is_misc && !hasRecurringKey e),
   (SheetSection.income, fun e => e.is_income),
   (SheetSection.misc, fun e => e.is_misc),
   (SheetSection.recurring, fun e => hasRecurringKey e)]

/-- First-match-wins placement over `claimSectionOrder`, exactly as the
claim words it. -/
def firstMatchSection (e : ExpenseRecord) : Option SheetSection :=
  (claimSectionOrder.find? (fun p => p.2 e)).map (fun p => p.1)

/-- Association-list lookup modelling Python dict indexing/membership. -/
def dictLookup (m : List (String × ℚ)) (k : String) : Option ℚ :=
  match m with
  | [] => none
  | p :: rest => if p.1 = k then some p.2 else dictLookup rest k

/-- Association-list update of an existing key, modelling Python dict
assignment `m[k] = v` for a key already present. -/
def dictUpdate (m : List (String × ℚ)) (k : String) (v : ℚ) : List (String × ℚ) :=
  m.map (fun p => if p.1 = k then (p.1, v) else p)

/-- `RecurringCheckResult` from `api.py`. -/
structure RecurringCheckResult where
  missing : List (String × ℚ)
  satisfied : List (String × ℚ)
  deriving DecidableEq

/-- The body of the record loop of
`ReconciliationSession.build_recurring_report`: skip records with a falsy
key (`if not key`), with a key not in `satisfied`, or flagged as payment;
otherwise accumulate into `satisfied` and recompute `missing` from the
configured expectation. -/
def recurringStep (recurring_expenses : List (String × ℚ))
    (acc : List (String × ℚ) × List (String × ℚ)) (record : ExpenseRecord) :
    List (String × ℚ) × List (String × ℚ) :=
  match record.recurring_key with
  | none => acc
  | some key =>
    if key = "" then acc
    else
      match dictLookup acc.2 key with
      | none => acc
      | some s =>
        if record.is_payment then acc
        else
          let s2 := s + record.amount
          (dictUpdate acc.1 key ((dictLookup recurring_expenses key).getD 0 - s2),
            dictUpdate acc.2 key s2)

/-- `ReconciliationSession.build_recurring_report`: initialize
`satisfied[key] = 0`, `missing[key] = expected` for each configured key,
then fold the record loop over the expense list. -/
def build_recurring_report (recurring_expenses : List (String × ℚ))
    (expenses : List ExpenseRecord) : RecurringCheckResult :=
  let missing0 := recurring_expenses.map (fun p => (p.1, p.2))
  let satisfied0 := recurring_expenses.map (fun p => (p.1, (0 : ℚ)))
  let final := expenses.foldl (recurringStep recurring_expenses) (missing0, satisfied0)
  { missing := final.1, satisfied := final.2 }

/-- The sum the claim specifies for `satisfied`: amounts of non-payment
records whose `recurring_key` equals the given key — with the code's extra
restriction that an empty-string key never matches. -/
def recurringSatisfiedSum (k : String) (expenses : List ExpenseRecord) : ℚ :=
  ((expenses.filter (fun r => r.recurring_key == some k && !(k == "") && !r.is_payment)).map
    (fun r => r.amount)).sum

deriving instance DecidableEq for Except

/-- The claim's concrete income record with a positive amount. -/
def sampleIncomePos : ExpenseRecord :=
  { date := { year := 2025, month := 7, day := 2 }, description := "Refund",
    amount := 30, is_income := true }

/-- The claim's concrete income record with a negative amount. -/
def sampleIncomeNeg : ExpenseRecord :=
  { date := { year := 2025, month := 7, day := 2 }, description := "Refund",
    amount := -30, is_income := true }

/-- A record flagged only as payment. -/
def samplePaymentOnly : ExpenseRecord :=
  { date := { year := 2025, month := 7, day := 3 }, description := "Card payment",
    amount := 200, is_payment := true }

/-- A non-payment record carrying an empty-string recurring key. -/
def sampleEmptyKeyRecord : ExpenseRecord :=
  { date := { year := 2025, month := 7, day := 5 }, description := "Odd",
    amount := 5, recurring_key := some "" }

/-- A recurring-tagged record matching the configured key "rent". -/
def sampleRecurringRent : ExpenseRecord :=
  { date := { year := 2025, month := 7, day := 1 }, description := "Rent",
    amount := 40, recurring_key := some "rent" }

/-- The row-bookkeeping invariant of the `populate` loop: each region's next
free row sits exactly below its rows written so far, and the written rows
occupy consecutive row numbers from the region's anchor. -/
def sheetRowInv (st : SheetState) : Prop :=
  st.misc_row = starting_misc_row + st.miscRows.length ∧
  st.miscRows.map (fun r => r.1) = List.range' starting_misc_row st.miscRows.length ∧
  st.recurring_row = starting_recurring_row + st.recRows.length ∧
  st.recRows.map (fun r => r.1) = List.range' starting_recurring_row st.recRows.length ∧
  st.purchases_row = starting_purchases_row + st.purRows.length ∧
  st.purRows.map (fun r => r.1) = List.range' starting_purchases_row st.purRows.length

/-- C10: `mark_as_income` sets `is_income` and clears `is_misc`/`is_payment`;
`mark_as_miscellaneous` sets only `is_misc`; `mark_as_payment` sets only
`is_payment`; each leaves every other field unchanged; `mark_as_income`
followed by `mark_as_miscellaneous` leaves both `is_income` and `is_misc`
set. -/
theorem mark_functions_flag_and_frame_spec (r : ExpenseRecord) :
    ((mark_as_income r).is_income = true ∧
      (mark_as_income r).is_misc = false ∧
      (mark_as_income r).is_payment = false ∧
      (mark_as_income r).date = r.date ∧
      (mark_as_income r).description = r.description ∧
      (mark_as_income r).amount = r.amount ∧
      (mark_as_income r).source_file = r.source_file ∧
      (mark_as_income r).category = r.category ∧
      (mark_as_income r).recurring_key = r.recurring_key) ∧
    ((mark_as_miscellaneous r).is_misc = true ∧
      (mark_as_miscellaneous r).is_income = r.is_income ∧
      (mark_as_miscellaneous r).is_payment = r.is_payment ∧
      (mark_as_miscellaneous r).date = r.date ∧
      (mark_as_miscellaneous r).description = r.description ∧
      (mark_as_miscellaneous r).amount = r.amount ∧
      (mark_as_miscellaneous r).source_file = r.source_file ∧
      (mark_as_miscellaneous r).category = r.category ∧
      (mark_as_miscellaneous r).recurring_key = r.recurring_key) ∧
    ((mark_as_payment r).is_payment = true ∧
      (mark_as_payment r).is_income = r.is_income ∧
      (mark_as_payment r).is_misc = r.is_misc ∧
      (mark_as_payment r).date = r.date ∧
      (mark_as_payment r).description = r.description ∧
      (mark_as_payment r).amount = r.amount ∧
      (mark_as_payment r).source_file = r.source_file ∧
      (mark_as_payment r).category = r.category ∧
      (mark_as_payment r).recurring_key = r.recurring_key) ∧
    ((mark_as_miscellaneous (mark_as_income r)).is_income = true ∧
      (mark_as_miscellaneous (mark_as_income r)).is_misc = true) := by
  refine ⟨⟨rfl, rfl, rfl, rfl, rfl, rfl, rfl, rfl, rfl⟩,
    ⟨rfl, rfl, rfl, rfl, rfl, rfl, rfl, rfl, rfl⟩,
    ⟨rfl, rfl, rfl, rfl, rfl, rfl, rfl, rfl, rfl⟩, rfl, rfl⟩

/-- C3: the post-classification income validation passes iff every record
with `is_income` has a negative amount; a failure reports exactly the
offending records and blocks the write; the concrete record with amount 30
fails and with amount -30 passes. -/
theorem check_income_flags_spec :
    (∀ expenses : List ExpenseRecord,
      (check_income_flags expenses = true ↔
        ∀ r ∈ expenses, r.is_income = true → r.amount < 0)) ∧
    (∀ (expenses : List ExpenseRecord) (r : ExpenseRecord),
      (r ∈ incomeFlagIssues expenses ↔ r ∈ expenses ∧ r.is_income = true ∧ 0 ≤ r.amount)) ∧
    (∀ expenses : List ExpenseRecord,
      check_income_flags expenses = false → cli_commit expenses = none) ∧
    check_income_flags [sampleIncomePos] = false ∧
    check_income_flags [sampleIncomeNeg] = true := by
  refine ⟨?_, ?_, ?_, by decide, by decide⟩
  · intro expenses
    simp [check_income_flags, incomeFlagIssues, List.isEmpty_iff, List.filter_eq_nil_iff, not_le]
  · intro expenses r
    simp [incomeFlagIssues, List.mem_filter, and_assoc]
  · intro expenses h
    simp [cli_commit, h]

/-- C3 witness: the failing concrete record blocks the commit. -/
theorem check_income_flags_spec_witness :
    check_income_flags [sampleIncomePos] = false ∧ cli_commit [sampleIncomePos] = none :=
  ⟨check_income_flags_spec.2.2.2.1,
    check_income_flags_spec.2.2.1 [sampleIncomePos] check_income_flags_spec.2.2.2.1⟩

/-- C5 counterexample: a config whose categories contain "Recurring" loads
successfully — "Recurring" is not in the code's reserved set, refuting the
claim that it is rejected. -/
theorem load_config_recurring_accepted :
    load_config_categories ["Recurring"] = Except.ok ["Recurring"] ∧
    isReservedName "Recurring" = false := by decide

/-- C5 amended: loading fails with a config error iff some truthy configured
entry, once stripped, case-insensitively equals one of the three reserved
names Income, Miscellaneous, Payment; the categories accepted by a
successful load are case-insensitively disjoint from those three reserved
names ("Recurring" is not reserved). -/
theorem load_config_categories_reserved_spec :
    ∀ items : List String,
      ((∃ e, load_config_categories items = Except.error e) ↔
        ∃ item ∈ items, ¬(item = "") ∧ isReservedName (trimStr item) = true) ∧
      (∀ cats, load_config_categories items = Except.ok cats →
        cats = (items.filter (fun item => !(item == ""))).map (fun item => trimStr item) ∧
        ∀ c ∈ cats, ∀ reserved ∈ RESERVED_CATEGORIES, lowerStr c ≠ lowerStr reserved) := by
  intro items
  rcases hfind : ((items.filter (fun item => !(item == ""))).map (fun item => trimStr item)).find?
      (fun name => isReservedName name) with _ | name
  · rw [List.find?_eq_none] at hfind
    constructor
    · constructor
      · rintro ⟨e, he⟩
        rw [load_config_categories] at he
        simp only [List.find?_eq_none.mpr hfind] at he
        exact Except.noConfusion he
      · rintro ⟨item, hitem, hne, hres⟩
        exact absurd hres (by
          simpa using hfind (trimStr item) (by
            simp only [List.mem_map, List.mem_filter]
            exact ⟨item, ⟨hitem, by simpa using hne⟩, rfl⟩))
    · intro cats hcats
      rw [load_config_categories] at hcats
      simp only [List.find?_eq_none.mpr hfind, Except.ok.injEq] at hcats
      subst hcats
      refine ⟨rfl, ?_⟩
      intro c hc reserved hr hEq
      apply hfind c hc
      simp only [isReservedName, List.any_eq_true]
      exact ⟨reserved, hr, by simp [hEq]⟩
  · have hp : isReservedName name = true := List.find?_some hfind
    have hmem : name ∈ (items.filter (fun item => !(item == ""))).map (fun item => trimStr item) :=
      List.mem_of_find?_eq_some hfind
    constructor
    · constructor
      · intro _
        simp only [List.mem_map, List.mem_filter] at hmem
        rcases hmem with ⟨item, ⟨hitem, hne⟩, rfl⟩
        exact ⟨item, hitem, by simpa using hne, hp⟩
      · intro _
        refine ⟨name, ?_⟩
        rw [load_config_categories]
        simp only [hfind]
    · intro cats hcats
      rw [load_config_categories] at hcats
      simp only [hfind] at hcats
      exact Except.noConfusion hcats

/-- C5 witness: a lowercase "income" entry is rejected; a plain "Food"
config loads and is disjoint from the reserved names. -/
theorem load_config_categories_reserved_spec_witness :
    (∃ e, load_config_categories ["income"] = Except.error e) ∧
    (["Food"] = (["Food"].filter (fun item => !(item == ""))).map (fun item => trimStr item) ∧
      ∀ c ∈ ["Food"], ∀ reserved ∈ RESERVED_CATEGORIES, lowerStr c ≠ lowerStr reserved) :=
  ⟨(load_config_categories_reserved_spec ["income"]).1.mpr
      ⟨"income", by decide, by decide, by decide⟩,
    (load_config_categories_reserved_spec ["Food"]).2 ["Food"] (by decide)⟩

/-- C2 counterexample: a record flagged only as payment has mutually
exclusive flags and matches the first (Regular) predicate of the claim's
section order, yet `populate` places it in no section and writes nothing,
refuting first-match placement and total coverage as claimed. -/
theorem payment_record_escapes_partition :
    firstMatchSection samplePaymentOnly = some SheetSection.regular ∧
    sectionOf samplePaymentOnly = none ∧
    populate [samplePaymentOnly] = initSheet := by decide

/-- Data rows and income terms produced by the `populate` loop from any
starting state: each region accumulates exactly the records the branch
order sends to its section, in input order. -/
lemma populate_go_data : ∀ (es : List ExpenseRecord) (st : SheetState),
    ((es.foldl populateStep st).total_income_terms =
      st.total_income_terms ++
        (es.filter (fun e => sectionOf e == some SheetSection.income)).map (fun e => e.amount)) ∧
    ((es.foldl populateStep st).miscRows.map (fun r => r.2) =
      st.miscRows.map (fun r => r.2) ++
        (es.filter (fun e => sectionOf e == some SheetSection.misc)).map
          (fun e => (e.description, e.amount))) ∧
    ((es.foldl populateStep st).recRows.map (fun r => r.2) =
      st.recRows.map (fun r => r.2) ++
        (es.filter (fun e => sectionOf e == some SheetSection.recurring)).map
          (fun e => (e.recurring_key.getD "", e.amount))) ∧
    ((es.foldl populateStep st).purRows.map (fun r => r.2) =
      st.purRows.map (fun r => r.2) ++
        (es.filter (fun e => sectionOf e == some SheetSection.regular)).map
          (fun e => (e.date, e.category, e.description, e.amount))) := by
  intro es
  induction es with
  | nil => intro st; simp
  | cons e rest ih =>
    intro st
    cases hP : e.is_payment <;> cases hI : e.is_income <;> cases hM : e.is_misc <;>
      cases hK : hasRecurringKey e <;>
      simp [populateStep, sectionOf, hP, hI, hM, hK, List.filter_cons, List.foldl_cons, ih]

/-- C2 amended: payment-flagged records are placed in no section; every
non-payment record is placed in exactly the section given by first-match
over the order Regular, Income, Miscellaneous, Recurring, and the
non-payment records are totally covered; the rows `populate` writes per
region are exactly the records of that section, in input order. -/
theorem section_partition_spec :
    (∀ e : ExpenseRecord, e.is_payment = false →
      sectionOf e = firstMatchSection e ∧ (sectionOf e).isSome = true) ∧
    (∀ e : ExpenseRecord, e.is_payment = true → sectionOf e = none) ∧
    (∀ es : List ExpenseRecord,
      (populate es).total_income_terms =
        (es.filter (fun e => sectionOf e == some SheetSection.income)).map (fun e => e.amount) ∧
      (populate es).miscRows.map (fun r => r.2) =
        (es.filter (fun e => sectionOf e == some SheetSection.misc)).map
          (fun e => (e.description, e.amount)) ∧
      (populate es).recRows.map (fun r => r.2) =
        (es.filter (fun e => sectionOf e == some SheetSection.recurring)).map
          (fun e => (e.recurring_key.getD "", e.amount)) ∧
      (populate es).purRows.map (fun r => r.2) =
        (es.filter (fun e => sectionOf e == some SheetSection.regular)).map
          (fun e => (e.date, e.category, e.description, e.amount))) := by
  refine ⟨?_, ?_, ?_⟩
  · intro e hP
    cases hI : e.is_income <;> cases hM : e.is_misc <;> cases hK : hasRecurringKey e <;>
      simp [sectionOf, firstMatchSection, claimSectionOrder, hP, hI, hM, hK]
  · intro e hP
    simp [sectionOf, hP]
  · intro es
    have h := populate_go_data es initSheet
    simpa [populate, initSheet] using h

/-- C2 witness: a concrete non-payment record agrees with first-match
placement, and the concrete payment record lands nowhere. -/
theorem section_partition_spec_witness :
    (sectionOf sampleIncomeNeg = firstMatchSection sampleIncomeNeg ∧
      (sectionOf sampleIncomeNeg).isSome = true) ∧
    sectionOf samplePaymentOnly = none :=
  ⟨section_partition_spec.1 sampleIncomeNeg rfl,
    section_partition_spec.2.1 samplePaymentOnly rfl⟩

/-- Filtering out payment records before the `populate` loop changes
nothing: the loop ignores them entirely. -/
lemma foldl_populate_filter_payment : ∀ (es : List ExpenseRecord) (st : SheetState),
    (es.filter (fun e => !e.is_payment)).foldl populateStep st = es.foldl populateStep st := by
  intro es
  induction es with
  | nil => intro st; simp
  | cons e rest ih =>
    intro st
    cases hP : e.is_payment <;>
      simp [List.filter_cons, hP, populateStep, ih]

/-- C6: payment-flagged records are written to no region of the sheet: the
whole sheet state — misc, recurring and purchase rows, the income formula
terms — and every region total are the same as if the payment records were
absent from the input. -/
theorem payments_written_nowhere :
    ∀ es : List ExpenseRecord,
      populate es = populate (es.filter (fun e => !e.is_payment)) ∧
      recurring_total es = recurring_total (es.filter (fun e => !e.is_payment)) ∧
      misc_total es = misc_total (es.filter (fun e => !e.is_payment)) ∧
      purchases_total es = purchases_total (es.filter (fun e => !e.is_payment)) := by
  intro es
  have h : populate es = populate (es.filter (fun e => !e.is_payment)) :=
    (foldl_populate_filter_payment es initSheet).symm
  exact ⟨h, by rw [recurring_total, recurring_total, h], by rw [misc_total, misc_total, h],
    by rw [purchases_total, purchases_total, h]⟩

/-- The `populate` loop preserves the row-bookkeeping invariant. -/
lemma sheetRowInv_foldl : ∀ (es : List ExpenseRecord) (st : SheetState),
    sheetRowInv st → sheetRowInv (es.foldl populateStep st) := by
  intro es
  induction es with
  | nil => intro st h; exact h
  | cons e rest ih =>
    intro st h
    rw [List.foldl_cons]
    apply ih
    obtain ⟨h1, h2, h3, h4, h5, h6⟩ := h
    cases hP : e.is_payment <;> cases hI : e.is_income <;> cases hM : e.is_misc <;>
      cases hK : hasRecurringKey e <;>
      refine ⟨?_, ?_, ?_, ?_, ?_, ?_⟩ <;>
      simp [populateStep, hP, hI, hM, hK, h1, h2, h3, h4, h5, h6] <;>
      first
      | omega
      | simpa [h1, h3, h5] using (@List.range'_concat 1 _ _).symm

/-- The final sheet state satisfies the row-bookkeeping invariant. -/
lemma populate_rowInv (es : List ExpenseRecord) : sheetRowInv (populate es) := by
  apply sheetRowInv_foldl
  refine ⟨rfl, rfl, rfl, rfl, rfl, rfl⟩

/-- Content of one `write_total` call as a function of the number of data
rows written in its region. -/
lemma write_total_spec (row col start inc n : Nat) (h : row = start + n) :
    (write_total row col start inc).labelRow = start + n ∧
    (write_total row col start inc).labelCol = col ∧
    (write_total row col start inc).cellRow = start + n ∧
    (write_total row col start inc).cellCol = col + inc ∧
    (n = 0 → (write_total row col start inc).value = TotalVal.lit 0) ∧
    (n ≠ 0 → (write_total row col start inc).value =
      TotalVal.sumRange start (start + n - 1) (col + inc)) := by
  subst h
  refine ⟨rfl, rfl, rfl, rfl, ?_, ?_⟩
  · intro h0
    simp [write_total, h0]
  · intro h0
    rw [write_total]
    simp only
    rw [if_pos (by omega)]

/-- Last element of a consecutive row range. -/
lemma range'_getLast?_eq (a n : Nat) (h : n ≠ 0) :
    (List.range' a n).getLast? = some (a + n - 1) := by
  rcases n with _ | m
  · exact absurd rfl h
  · rw [@List.range'_concat 1 a m]
    simp [List.getLast?_concat]

/-- C7: each itemized region's total cell sits directly below the region's
last data row in the region's amount column; with at least one data row it
holds a SUM formula from the anchor row to the last written row, and with
no data rows it holds the literal 0. -/
theorem region_totals_spec :
    ∀ es : List ExpenseRecord,
      ((recurring_total es).cellRow = starting_recurring_row + (populate es).recRows.length ∧
       (recurring_total es).cellCol = 2 ∧
       ((populate es).recRows.length = 0 → (recurring_total es).value = TotalVal.lit 0) ∧
       ((populate es).recRows.length ≠ 0 →
         (recurring_total es).value =
           TotalVal.sumRange starting_recurring_row
             (starting_recurring_row + (populate es).recRows.length - 1) 2 ∧
         ((populate es).recRows.map (fun r => r.1)).getLast? =
           some (starting_recurring_row + (populate es).recRows.length - 1))) ∧
      ((misc_total es).cellRow = starting_misc_row + (populate es).miscRows.length ∧
       (misc_total es).cellCol = 5 ∧
       ((populate es).miscRows.length = 0 → (misc_total es).value = TotalVal.lit 0) ∧
       ((populate es).miscRows.length ≠ 0 →
         (misc_total es).value =
           TotalVal.sumRange starting_misc_row
             (starting_misc_row + (populate es).miscRows.length - 1) 5 ∧
         ((populate es).miscRows.map (fun r => r.1)).getLast? =
           some (starting_misc_row + (populate es).miscRows.length - 1))) ∧
      ((purchases_total es).cellRow = starting_purchases_row + (populate es).purRows.length ∧
       (purchases_total es).cellCol = 11 ∧
       ((populate es).purRows.length = 0 → (purchases_total es).value = TotalVal.lit 0) ∧
       ((populate es).purRows.length ≠ 0 →
         (purchases_total es).value =
           TotalVal.sumRange starting_purchases_row
             (starting_purchases_row + (populate es).purRows.length - 1) 11 ∧
         ((populate es).purRows.map (fun r => r.1)).getLast? =
           some (starting_purchases_row + (populate es).purRows.length - 1))) := by
  intro es
  obtain ⟨h1, h2, h3, h4, h5, h6⟩ := populate_rowInv es
  obtain ⟨m1, m2, m3, m4, m5, m6⟩ :=
    write_total_spec (populate es).misc_row 4 starting_misc_row 1 (populate es).miscRows.length h1
  obtain ⟨r1, r2, r3, r4, r5, r6⟩ :=
    write_total_spec (populate es).recurring_row 1 starting_recurring_row 1
      (populate es).recRows.length h3
  obtain ⟨p1, p2, p3, p4, p5, p6⟩ :=
    write_total_spec (populate es).purchases_row 8 starting_purchases_row 3
      (populate es).purRows.length h5
  refine ⟨⟨r3, r4, r5, ?_⟩, ⟨m3, m4, m5, ?_⟩, ⟨p3, p4, p5, ?_⟩⟩
  · intro hn
    exact ⟨r6 hn, by rw [h4]; exact range'_getLast?_eq _ _ hn⟩
  · intro hn
    exact ⟨m6 hn, by rw [h2]; exact range'_getLast?_eq _ _ hn⟩
  · intro hn
    exact ⟨p6 hn, by rw [h6]; exact range'_getLast?_eq _ _ hn⟩

/-- C7 witness: one recurring record yields a one-row SUM range; an empty
expense list yields a literal zero miscellaneous total. -/
theorem region_totals_spec_witness :
    (recurring_total [sampleRecurringRent]).value = TotalVal.sumRange 6 6 2 ∧
    (misc_total []).value = TotalVal.lit 0 :=
  ⟨((region_totals_spec [sampleRecurringRent]).1.2.2.2 (by decide)).1,
    (region_totals_spec []).2.1.2.2.1 rfl⟩

/-- Appending a digit multiplies the accumulated value by ten. -/
lemma charsToNat_append_digit (A : List Char) (c : Char) :
    charsToNat (A ++ [c]) = 10 * charsToNat A + digitVal c := by
  simp [charsToNat, List.foldl_append]

/-- Digit characters decode back to their value. -/
lemma digitVal_digitChar (d : Nat) (h : d < 10) : digitVal (digitChar d) = d := by
  interval_cases d <;> rfl

/-- Digit characters satisfy the digit test. -/
lemma digitChar_isDigit (d : Nat) (h : d < 10) : (digitChar d).isDigit = true := by
  interval_cases d <;> decide

/-- Decimal rendering decodes back to the rendered number. -/
lemma charsToNat_natCharsAux : ∀ (fuel n : Nat), n ≤ fuel → charsToNat (natCharsAux fuel n) = n := by
  intro fuel
  induction fuel with
  | zero =>
    intro n h
    have : n = 0 := Nat.le_zero.mp h
    simp [this, natCharsAux, charsToNat]
  | succ f ih =>
    intro n h
    rw [natCharsAux]
    by_cases h0 : n = 0
    · simp [h0, charsToNat]
    · rw [if_neg h0, charsToNat_append_digit, digitVal_digitChar _ (Nat.mod_lt _ (by norm_num))]
      have hdiv : n / 10 < n := Nat.div_lt_self (Nat.pos_of_ne_zero h0) (by norm_num)
      rw [ih (n / 10) (by omega)]
      omega

/-- Decimal rendering of a number decodes to the number. -/
lemma charsToNat_natChars (n : Nat) : charsToNat (natChars n) = n :=
  charsToNat_natCharsAux n n le_rfl

/-- A rendered number consists of digit characters only. -/
lemma allDigits_natCharsAux : ∀ (fuel n : Nat), allDigits (natCharsAux fuel n) = true := by
  intro fuel
  induction fuel with
  | zero => intro n; rfl
  | succ f ih =>
    intro n
    rw [natCharsAux]
    by_cases h0 : n = 0
    · simp [h0, allDigits]
    · rw [if_neg h0]
      simp only [allDigits, List.all_append] at ih ⊢
      simp [ih, digitChar_isDigit _ (Nat.mod_lt _ (by norm_num))]

/-- A number below a power of ten renders within that many digits. -/
lemma natCharsAux_length : ∀ (fuel n k : Nat), n < 10 ^ k → (natCharsAux fuel n).length ≤ k := by
  intro fuel
  induction fuel with
  | zero => intro n k _; simp [natCharsAux]
  | succ f ih =>
    intro n k h
    rw [natCharsAux]
    by_cases h0 : n = 0
    · simp [h0]
    · rw [if_neg h0]
      rcases k with _ | k2
      · simp at h; omega
      · have hdiv : n / 10 < 10 ^ k2 := by
          rw [Nat.div_lt_iff_lt_mul (by norm_num)]
          calc n < 10 ^ (k2 + 1) := h
          _ = 10 ^ k2 * 10 := by ring
        have := ih (n / 10) k2 hdiv
        simp [List.length_append]
        omega

/-- Leading zero characters contribute nothing to the decoded value. -/
lemma foldl_zeros : ∀ k : Nat,
    List.foldl (fun a c => 10 * a + digitVal c) 0 (List.replicate k '0') = 0 := by
  intro k
  induction k with
  | zero => rfl
  | succ k2 ih => simpa [List.replicate_succ] using ih

/-- Zero padding does not change the decoded value. -/
lemma charsToNat_padZero (w : Nat) (l : List Char) :
    charsToNat (padZero w l) = charsToNat l := by
  simp [padZero, charsToNat, List.foldl_append, foldl_zeros]

/-- Zero padding yields exactly the requested width. -/
lemma padZero_length (w : Nat) (l : List Char) (h : l.length ≤ w) :
    (padZero w l).length = w := by
  simp [padZero]
  omega

/-- Zero padding preserves digit-only strings. -/
lemma allDigits_padZero (w : Nat) (l : List Char) (h : allDigits l = true) :
    allDigits (padZero w l) = true := by
  simp only [padZero, allDigits, List.all_append]
  simp only [allDigits] at h
  simp [h]

/-- Splitting always yields at least one piece. -/
lemma splitOnChar_ne_nil (c : Char) : ∀ l : List Char, splitOnChar c l ≠ [] := by
  intro l
  induction l with
  | nil => simp [splitOnChar]
  | cons x xs ih =>
    rw [splitOnChar]
    cases hsp : splitOnChar c xs with
    | nil => exact absurd hsp ih
    | cons hd tl =>
      by_cases hx : x = c <;> simp [hx]

/-- A separator-free list splits into itself alone. -/
lemma splitOnChar_sep_free (c : Char) :
    ∀ l : List Char, (∀ x ∈ l, x ≠ c) → splitOnChar c l = [l] := by
  intro l
  induction l with
  | nil => intro _; rfl
  | cons x xs ih =>
    intro h
    rw [splitOnChar, ih (fun y hy => h y (List.mem_cons_of_mem x hy))]
    simp [h x (List.mem_cons_self x xs)]

/-- Splitting peels off a separator-free prefix before a separator. -/
lemma splitOnChar_append (c : Char) :
    ∀ (A R : List Char), (∀ x ∈ A, x ≠ c) → splitOnChar c (A ++ c :: R) = A :: splitOnChar c R := by
  intro A
  induction A with
  | nil =>
    intro R _
    rw [List.nil_append, splitOnChar]
    cases hsp : splitOnChar c R with
    | nil => exact absurd hsp (splitOnChar_ne_nil c R)
    | cons hd tl => simp
  | cons a A2 ih =>
    intro R h
    rw [List.cons_append, splitOnChar, ih R (fun y hy => h y (List.mem_cons_of_mem a hy))]
    have hne := splitOnChar_ne_nil c R
    cases hsp : splitOnChar c R with
    | nil => exact absurd hsp hne
    | cons hd tl => simp [h a (List.mem_cons_self a A2)]

/-- Inversion of a successful `datetime.date` construction. -/
lemma mkValidDate_some (y m d : Nat) (dd : Date) (h : mkValidDate y m d = some dd) :
    dd.year = y ∧ dd.month = m ∧ dd.day = d ∧ 1 ≤ y ∧ y ≤ 9999 ∧ 1 ≤ m ∧ m ≤ 12 ∧
      1 ≤ d ∧ d ≤ daysInMonth y m := by
  rw [mkValidDate] at h
  split_ifs at h with hc
  · obtain ⟨h1, h2, h3, h4, h5, h6⟩ := hc
    injection h with h7
    subst h7
    exact ⟨rfl, rfl, rfl, h1, h2, h3, h4, h5, h6⟩

/-- No month has more than 31 days. -/
lemma daysInMonth_le_31 (y m : Nat) : daysInMonth y m ≤ 31 := by
  rw [daysInMonth]
  split_ifs <;> omega

/-- Digit strings contain no non-digit separator. -/
lemma allDigits_mem_ne (l : List Char) (h : allDigits l = true) (sep : Char)
    (hsep : sep.isDigit = false) : ∀ x ∈ l, x ≠ sep := by
  intro x hx hEq
  simp only [allDigits, List.all_eq_true] at h
  have := h x hx
  rw [hEq, hsep] at this
  exact Bool.noConfusion this

/-- A date parsed in `%m/%d/%Y` form satisfies the constructor checks. -/
lemma parse_mdY_inv (l : List Char) (d : Date) (h : parse_mdY l = some d) :
    mkValidDate d.year d.month d.day = some d := by
  rw [parse_mdY] at h
  split at h
  · split_ifs at h
    obtain ⟨e1, e2, e3, _⟩ := mkValidDate_some _ _ _ _ h
    rw [e1, e2, e3]
    exact h
  · exact Option.noConfusion h

/-- A date parsed in `%Y-%m-%d` form satisfies the constructor checks. -/
lemma parse_Ymd_inv (l : List Char) (d : Date) (h : parse_Ymd l = some d) :
    mkValidDate d.year d.month d.day = some d := by
  rw [parse_Ymd] at h
  split at h
  · split_ifs at h
    obtain ⟨e1, e2, e3, _⟩ := mkValidDate_some _ _ _ _ h
    rw [e1, e2, e3]
    exact h
  · exact Option.noConfusion h

/-- Formatting a valid date in `%m/%d/%Y` and re-parsing recovers it. -/
lemma format_parse_mdY (dd : Date) (h : mkValidDate dd.year dd.month dd.day = some dd) :
    parse_mdY (format_mdY dd) = some dd := by
  obtain ⟨_, _, _, hy1, hy2, hm1, hm2, hd1, hd2⟩ := mkValidDate_some _ _ _ _ h
  have hd31 : dd.day ≤ 31 := le_trans hd2 (daysInMonth_le_31 _ _)
  have hMlen : (padZero 2 (natChars dd.month)).length = 2 :=
    padZero_length 2 _ (natCharsAux_length _ _ 2
      (by have : (10 : Nat) ^ 2 = 100 := by norm_num
          omega))
  have hDlen : (padZero 2 (natChars dd.day)).length = 2 :=
    padZero_length 2 _ (natCharsAux_length _ _ 2
      (by have : (10 : Nat) ^ 2 = 100 := by norm_num
          omega))
  have hYlen : (padZero 4 (natChars dd.year)).length = 4 :=
    padZero_length 4 _ (natCharsAux_length _ _ 4
      (by have : (10 : Nat) ^ 4 = 10000 := by norm_num
          omega))
  have hMdig : allDigits (padZero 2 (natChars dd.month)) = true :=
    allDigits_padZero _ _ (allDigits_natCharsAux _ _)
  have hDdig : allDigits (padZero 2 (natChars dd.day)) = true :=
    allDigits_padZero _ _ (allDigits_natCharsAux _ _)
  have hYdig : allDigits (padZero 4 (natChars dd.year)) = true :=
    allDigits_padZero _ _ (allDigits_natCharsAux _ _)
  have hsplit : splitOnChar '/' (format_mdY dd) =
      [padZero 2 (natChars dd.month), padZero 2 (natChars dd.day), padZero 4 (natChars dd.year)] := by
    rw [format_mdY]
    rw [splitOnChar_append '/' _ _ (allDigits_mem_ne _ hMdig '/' (by decide))]
    rw [splitOnChar_append '/' _ _ (allDigits_mem_ne _ hDdig '/' (by decide))]
    rw [splitOnChar_sep_free '/' _ (allDigits_mem_ne _ hYdig '/' (by decide))]
  rw [parse_mdY, hsplit]
  simp only [hMlen, hDlen, hYlen, hMdig, hDdig, hYlen, hYdig, charsToNat_padZero,
    charsToNat_natChars]
  rw [if_pos (by norm_num)]
  exact h

/-- Formatting a valid date in `%Y-%m-%d` and re-parsing recovers it. -/
lemma format_parse_Ymd (dd : Date) (h : mkValidDate dd.year dd.month dd.day = some dd) :
    parse_Ymd (format_Ymd dd) = some dd := by
  obtain ⟨_, _, _, hy1, hy2, hm1, hm2, hd1, hd2⟩ := mkValidDate_some _ _ _ _ h
  have hd31 : dd.day ≤ 31 := le_trans hd2 (daysInMonth_le_31 _ _)
  have hMlen : (padZero 2 (natChars dd.month)).length = 2 :=
    padZero_length 2 _ (natCharsAux_length _ _ 2
      (by have : (10 : Nat) ^ 2 = 100 := by norm_num
          omega))
  have hDlen : (padZero 2 (natChars dd.day)).length = 2 :=
    padZero_length 2 _ (natCharsAux_length _ _ 2
      (by have : (10 : Nat) ^ 2 = 100 := by norm_num
          omega))
  have hYlen : (padZero 4 (natChars dd.year)).length = 4 :=
    padZero_length 4 _ (natCharsAux_length _ _ 4
      (by have : (10 : Nat) ^ 4 = 10000 := by norm_num
          omega))
  have hMdig : allDigits (padZero 2 (natChars dd.month)) = true :=
    allDigits_padZero _ _ (allDigits_natCharsAux _ _)
  have hDdig : allDigits (padZero 2 (natChars dd.day)) = true :=
    allDigits_padZero _ _ (allDigits_natCharsAux _ _)
  have hYdig : allDigits (padZero 4 (natChars dd.year)) = true :=
    allDigits_padZero _ _ (allDigits_natCharsAux _ _)
  have hsplit : splitOnChar '-' (format_Ymd dd) =
      [padZero 4 (natChars dd.year), padZero 2 (natChars dd.month), padZero 2 (natChars dd.day)] := by
    rw [format_Ymd]
    rw [splitOnChar_append '-' _ _ (allDigits_mem_ne _ hYdig '-' (by decide))]
    rw [splitOnChar_append '-' _ _ (allDigits_mem_ne _ hMdig '-' (by decide))]
    rw [splitOnChar_sep_free '-' _ (allDigits_mem_ne _ hDdig '-' (by decide))]
  rw [parse_Ymd, hsplit]
  simp only [hMlen, hDlen, hYlen, hMdig, hDdig, hYdig, charsToNat_padZero, charsToNat_natChars]
  rw [if_pos (by norm_num)]
  exact h

/-- C9 amended: date parsing tries the format MM/DD/YYYY then YYYY-MM-DD,
the first successful parse wins, and failure of both yields the error naming
the raw string; parsing is lossless up to zero padding: formatting the
parsed calendar date back in the same format re-parses to the same calendar
date (the original string itself is recovered only when its fields were
zero-padded). -/
theorem parse_date_spec :
    (∀ (s : String) (d : Date), parse_mdY s.data = some d → parse_date s = Except.ok d) ∧
    (∀ (s : String) (d : Date), parse_mdY s.data = none → parse_Ymd s.data = some d →
      parse_date s = Except.ok d) ∧
    (∀ s : String, parse_mdY s.data = none → parse_Ymd s.data = none →
      parse_date s = Except.error (ParseErr.badDate s)) ∧
    (∀ (l : List Char) (d : Date), parse_mdY l = some d → parse_mdY (format_mdY d) = some d) ∧
    (∀ (l : List Char) (d : Date), parse_Ymd l = some d → parse_Ymd (format_Ymd d) = some d) := by
  refine ⟨?_, ?_, ?_, ?_, ?_⟩
  · intro s d h
    simp only [parse_date, h]
  · intro s d h1 h2
    simp only [parse_date, h1, h2]
  · intro s h1 h2
    simp only [parse_date, h1, h2]
  · intro l d h
    exact format_parse_mdY d (parse_mdY_inv l d h)
  · intro l d h
    exact format_parse_Ymd d (parse_Ymd_inv l d h)

/-- C9 counterexample: the string 1/2/2025 parses in the first format, but
re-formatting the parsed date yields the zero-padded 01/02/2025, not the
original string, refuting string-level losslessness as claimed. -/
theorem parse_date_not_string_lossless :
    parse_date "1/2/2025" = Except.ok { year := 2025, month := 1, day := 2 } ∧
    String.mk (format_mdY { year := 2025, month := 1, day := 2 }) = "01/02/2025" ∧
    format_mdY { year := 2025, month := 1, day := 2 } ≠ "1/2/2025".data := by decide

/-- C9 witness: a concrete first-format parse, a concrete round trip, and a
concrete failing string. -/
theorem parse_date_spec_witness :
    parse_date "09/01/2025" = Except.ok { year := 2025, month := 9, day := 1 } ∧
    parse_mdY (format_mdY { year := 2025, month := 9, day := 1 }) =
      some { year := 2025, month := 9, day := 1 } ∧
    parse_date "hello" = Except.error (ParseErr.badDate "hello") :=
  ⟨parse_date_spec.1 "09/01/2025" _ (by decide),
    parse_date_spec.2.2.2.1 "09/01/2025".data _ (by decide),
    parse_date_spec.2.2.1 "hello" (by decide) (by decide)⟩

/-- Comma stripping keeps the outer parentheses. -/
lemma stripCommas_paren (u : List Char) :
    stripCommas ('(' :: u ++ [')']) = '(' :: stripCommas u ++ [')'] := by
  simp [stripCommas, List.filter_cons, List.filter_append]

/-- An outer parenthesis pair turns into a leading minus sign. -/
lemma parenNormalize_wrap (A : List Char) :
    parenNormalize ('(' :: A ++ [')']) = '-' :: A := by
  rw [parenNormalize, if_pos]
  · simp
  · constructor
    · rfl
    · exact List.getLast?_concat _


/-- With unique keys, lookup finds the stored value. -/
lemma dictLookup_of_mem_nodup : ∀ (m : List (String × ℚ)) (k : String) (v : ℚ),
    (m.map Prod.fst).Nodup → (k, v) ∈ m → dictLookup m k = some v := by
  intro m
  induction m with
  | nil => intro k v _ h; exact absurd h (List.not_mem_nil _)
  | cons p rest ih =>
    intro k v hnd hmem
    rw [List.map_cons, List.nodup_cons] at hnd
    rcases List.mem_cons.mp hmem with h | h
    · subst h
      simp [dictLookup]
    · rw [dictLookup, if_neg ?_]
      · exact ih k v hnd.2 h
      · intro hEq
        exact hnd.1 (hEq ▸ List.mem_map_of_mem Prod.fst h)

/-- Lookup in a constant-valued copy of a dict. -/
lemma dictLookup_map_const : ∀ (m : List (String × ℚ)) (k : String) (c : ℚ),
    dictLookup (m.map (fun p => (p.1, c))) k = (dictLookup m k).map (fun _ => c) := by
  intro m
  induction m with
  | nil => intro k c; rfl
  | cons p rest ih =>
    intro k c
    by_cases h : p.1 = k <;> simp [dictLookup, h, ih]

/-- Lookup in an entrywise copy of a dict. -/
lemma dictLookup_map_eta : ∀ (m : List (String × ℚ)) (k : String),
    dictLookup (m.map (fun p => (p.1, p.2))) k = dictLookup m k := by
  intro m
  induction m with
  | nil => intro k; rfl
  | cons p rest ih =>
    intro k
    by_cases h : p.1 = k <;> simp [dictLookup, h, ih]

/-- Lookup of an updated key returns the new value when present. -/
lemma dictLookup_dictUpdate_self : ∀ (m : List (String × ℚ)) (k : String) (v : ℚ),
    dictLookup (dictUpdate m k v) k = (dictLookup m k).map (fun _ => v) := by
  intro m
  induction m with
  | nil => intro k v; rfl
  | cons p rest ih =>
    intro k v
    by_cases h : p.1 = k
    · rw [dictUpdate, List.map_cons, if_pos h, dictLookup, dictLookup, if_pos h]
      simp [h]
    · rw [dictUpdate, List.map_cons, if_neg h, dictLookup, if_neg h, dictLookup, if_neg h]
      exact ih k v

/-- Updating one key leaves lookups of other keys unchanged. -/
lemma dictLookup_dictUpdate_other : ∀ (m : List (String × ℚ)) (k k2 : String) (v : ℚ),
    k ≠ k2 → dictLookup (dictUpdate m k2 v) k = dictLookup m k := by
  intro m
  induction m with
  | nil => intro k k2 v _; rfl
  | cons p rest ih =>
    intro k k2 v hne
    by_cases h2 : p.1 = k2
    · rw [dictUpdate, List.map_cons, if_pos h2, dictLookup, if_neg (by rw [h2]; exact fun e => hne e.symm)]
      rw [dictLookup, if_neg (by rw [h2]; exact fun e => hne e.symm)]
      exact ih k k2 v hne
    · rw [dictUpdate, List.map_cons, if_neg h2]
      by_cases h : p.1 = k
      · rw [dictLookup, if_pos h, dictLookup, if_pos h]
      · rw [dictLookup, if_neg h, dictLookup, if_neg h]
        exact ih k k2 v hne

/-- The record loop of `build_recurring_report` maintains, for each
configured key, `satisfied = running sum` and `missing = expected - sum`. -/
lemma recurring_loop_invariant (cfg : List (String × ℚ)) (k : String) (expected : ℚ)
    (hnd : (cfg.map Prod.fst).Nodup) (hmem : (k, expected) ∈ cfg) :
    ∀ (expenses : List ExpenseRecord) (macc sacc : List (String × ℚ)) (s : ℚ),
      dictLookup sacc k = some s → dictLookup macc k = some (expected - s) →
      dictLookup (expenses.foldl (recurringStep cfg) (macc, sacc)).2 k =
        some (s + recurringSatisfiedSum k expenses) ∧
      dictLookup (expenses.foldl (recurringStep cfg) (macc, sacc)).1 k =
        some (expected - (s + recurringSatisfiedSum k expenses)) := by
  intro expenses
  induction expenses with
  | nil =>
    intro macc sacc s hs hm
    simp [recurringSatisfiedSum, hs, hm]
  | cons r rest ih =>
    intro macc sacc s hs hm
    rw [List.foldl_cons]
    have hsum : recurringSatisfiedSum k (r :: rest) =
        (if (r.recurring_key == some k && !(k == "") && !r.is_payment) = true
          then r.amount else 0) + recurringSatisfiedSum k rest := by
      rw [recurringSatisfiedSum, List.filter_cons]
      split_ifs with hcond
      · simp [recurringSatisfiedSum, hcond]
      · simp [recurringSatisfiedSum, hcond]
    rcases hk : r.recurring_key with _ | key
    · rw [recurringStep]
      simp only [hk]
      rw [hsum, if_neg (by simp [hk])]
      simpa using ih macc sacc s hs hm
    · by_cases hkey : key = ""
      · rw [recurringStep]
        simp only [hk]
        rw [if_pos hkey]
        rw [hsum, if_neg (by
          subst hkey
          by_cases hkk : k = ""
          · simp [hk, hkk]
          · simp [hk]
            intro e
            exact absurd e.symm hkk)]
        simpa using ih macc sacc s hs hm
      · rcases hlk : dictLookup sacc key with _ | s3
        · have hne : key ≠ k := by
            intro e
            rw [e, hs] at hlk
            exact Option.noConfusion hlk
          rw [recurringStep]
          simp only [hk]
          rw [if_neg hkey]
          simp only [hlk]
          rw [hsum, if_neg (by simp [hk, hne])]
          simpa using ih macc sacc s hs hm
        · cases hp : r.is_payment with
          | true =>
            rw [recurringStep]
            simp only [hk]
            rw [if_neg hkey]
            simp only [hlk]
            rw [if_pos hp]
            rw [hsum, if_neg (by simp [hp])]
            simpa using ih macc sacc s hs hm
          | false =>
            rw [recurringStep]
            simp only [hk]
            rw [if_neg hkey]
            simp only [hlk]
            rw [if_neg (by simp [hp])]
            by_cases hkk : key = k
            · subst hkk
              have hs3 : s3 = s := by
                rw [hs] at hlk
                exact (Option.some.injEq _ _).mp hlk.symm
              subst hs3
              have hcfg : dictLookup cfg key = some expected :=
                dictLookup_of_mem_nodup cfg key expected hnd hmem
              have hs2 : dictLookup (dictUpdate sacc key (s3 + r.amount)) key =
                  some (s3 + r.amount) := by
                rw [dictLookup_dictUpdate_self, hs]
                rfl
              have hm2 : dictLookup
                  (dictUpdate macc key ((dictLookup cfg key).getD 0 - (s3 + r.amount))) key =
                  some (expected - (s3 + r.amount)) := by
                rw [dictLookup_dictUpdate_self, hm, hcfg]
                rfl
              have hres := ih _ _ (s3 + r.amount) hs2 hm2
              rw [hsum, if_pos (by simp [hk, hkey, hp])]
              constructor
              · rw [← add_assoc]
                exact hres.1
              · rw [← add_assoc]
                exact hres.2
            · have hkn : k ≠ key := fun e => hkk e.symm
              have hs2 : dictLookup (dictUpdate sacc key (s3 + r.amount)) k = some s := by
                rw [dictLookup_dictUpdate_other _ _ _ _ hkn, hs]
              have hm2 : dictLookup
                  (dictUpdate macc key ((dictLookup cfg key).getD 0 - (s3 + r.amount))) k =
                  some (expected - s) := by
                rw [dictLookup_dictUpdate_other _ _ _ _ hkn, hm]
              rw [hsum, if_neg (by simp [hk, hkk])]
              simpa using ih _ _ s hs2 hm2

/-- C1 amended: for every configured mapping and configured key k,
`satisfied[k]` is the sum of the amounts of the non-payment records whose
recurring_key equals k — except that records whose key is the empty string
are always skipped (`if not key`), so a configured empty-string key stays at
0 — and `missing[k] = expected[k] - satisfied[k]`; a key with no matching
records keeps `satisfied = 0`, `missing = expected`, and `missing` may go
negative when overpaid. -/
theorem build_recurring_report_spec :
    ∀ (cfg : List (String × ℚ)) (expenses : List ExpenseRecord) (k : String) (expected : ℚ),
      (cfg.map Prod.fst).Nodup → (k, expected) ∈ cfg →
      dictLookup (build_recurring_report cfg expenses).satisfied k =
        some (recurringSatisfiedSum k expenses) ∧
      dictLookup (build_recurring_report cfg expenses).missing k =
        some (expected - recurringSatisfiedSum k expenses) := by
  intro cfg expenses k expected hnd hmem
  have hcfg : dictLookup cfg k = some expected := dictLookup_of_mem_nodup cfg k expected hnd hmem
  have hs0 : dictLookup (cfg.map (fun p => (p.1, (0 : ℚ)))) k = some 0 := by
    rw [dictLookup_map_const, hcfg]
    rfl
  have hm0 : dictLookup (cfg.map (fun p => (p.1, p.2))) k = some (expected - 0) := by
    rw [dictLookup_map_eta, hcfg, sub_zero]
  have h := recurring_loop_invariant cfg k expected hnd hmem expenses _ _ 0 hs0 hm0
  rw [build_recurring_report]
  constructor
  · simpa using h.1
  · simpa using h.2

/-- C1 counterexample: with the empty string configured as a key and a
non-payment record carrying that key with amount 5, the claim's sum is 5
but the report leaves `satisfied` at 0 (and `missing` at the full expected
10), because the loop skips falsy keys. -/
theorem recurring_report_empty_key_counterexample :
    dictLookup (build_recurring_report [("", 10)] [sampleEmptyKeyRecord]).satisfied "" =
      some 0 ∧
    dictLookup (build_recurring_report [("", 10)] [sampleEmptyKeyRecord]).missing "" =
      some 10 ∧
    (([sampleEmptyKeyRecord].filter
        (fun r => r.recurring_key == some "" && !r.is_payment)).map (fun r => r.amount)).sum
      = 5 ∧
    (0 : ℚ) ≠ 5 := by
  refine ⟨by decide, by decide, ?_, by norm_num⟩
  norm_num [sampleEmptyKeyRecord, List.filter]

/-- C1 witness: the amended statement applied to the configured key "rent"
with one matching record. -/
theorem build_recurring_report_spec_witness :
    dictLookup (build_recurring_report [("rent", 100)] [sampleRecurringRent]).satisfied "rent" =
      some (recurringSatisfiedSum "rent" [sampleRecurringRent]) ∧
    dictLookup (build_recurring_report [("rent", 100)] [sampleRecurringRent]).missing "rent" =
      some (100 - recurringSatisfiedSum "rent" [sampleRecurringRent]) :=
  build_recurring_report_spec [("rent", 100)] [sampleRecurringRent] "rent" 100
    (by decide) (by decide)

/-- An error result is not ok. -/
lemma isOk_error {α : Type} (e : ParseErr) :
    (Except.error e : Except ParseErr α).isOk = false := rfl

/-- A successful result is ok. -/
lemma isOk_ok {α : Type} (x : α) :
    (Except.ok x : Except ParseErr α).isOk = true := rfl

/-- A successful result converts to its value. -/
lemma toOption_ok {α : Type} (x : α) :
    (Except.ok x : Except ParseErr α).toOption = some x := rfl

/-- C4 counterexample: with a well-formed first file and a malformed second
file, the failing load leaves the first file's record in the session expense
list, refuting the claim that no records from the load are kept. -/
theorem load_keeps_earlier_files :
    load_transactions []
      [("a.csv", [{ date := "09/01/2025", description := "Test Merchant", amount := "5" }]),
       ("b.csv", [{ date := "bad", description := "x", amount := "1" }])] =
      ([{ date := { year := 2025, month := 9, day := 1 }, description := "Test Merchant",
          amount := (5 : ℚ), source_file := some "a.csv" }], some (ParseErr.badDate "bad")) ∧
    ([{ date := { year := 2025, month := 9, day := 1 }, description := "Test Merchant",
        amount := (5 : ℚ), source_file := some "a.csv" }] : List ExpenseRecord) ≠ [] := by
  refine ⟨by decide, by simp⟩

/-- C4 amended: a malformed date or amount in any row makes the load fail
with a parse error; a file parses exactly when all of its rows do, a parsed
file contributes exactly one record per row (no silent drops), and the
failing load keeps precisely the records of the files fully parsed before
the failing file — nothing from the failing file itself or later files. -/
theorem load_transactions_spec :
    (∀ (expenses : List ExpenseRecord) (files : List (String × List CsvRow)),
      (load_transactions expenses files).1 =
        expenses ++ ((files.takeWhile (fun f => (parse_csv f.1 f.2).isOk)).map
          (fun f => (parse_csv f.1 f.2).toOption.getD [])).flatten ∧
      ((load_transactions expenses files).2 = none ↔
        ∀ f ∈ files, (parse_csv f.1 f.2).isOk = true)) ∧
    (∀ (p : String) (rows : List CsvRow) (records : List ExpenseRecord),
      parse_csv p rows = Except.ok records → records.length = rows.length) ∧
    (∀ (p : String) (rows : List CsvRow),
      (parse_csv p rows).isOk = true ↔
        ∀ row ∈ rows, (parse_date (trimStr row.date)).isOk = true ∧
          (parse_amount (trimStr row.amount)).isSome = true) := by
  refine ⟨?_, ?_, ?_⟩
  · intro expenses files
    induction files generalizing expenses with
    | nil => simp [load_transactions]
    | cons f rest ih =>
      obtain ⟨p, rows⟩ := f
      rcases hpc : parse_csv p rows with e | records
      · rw [load_transactions]
        simp only [hpc]
        constructor
        · simp [List.takeWhile_cons, hpc, isOk_error]
        · constructor
          · intro h
            exact absurd h (by simp)
          · intro h
            have h2 := h (p, rows) (List.mem_cons_self _ _)
            simp only [hpc, isOk_error] at h2
            exact absurd h2 (by decide)
      · rw [load_transactions]
        simp only [hpc]
        obtain ⟨ih1, ih2⟩ := ih (expenses ++ records)
        constructor
        · rw [ih1]
          simp [List.takeWhile_cons, hpc, isOk_ok, toOption_ok, List.append_assoc]
        · rw [ih2]
          constructor
          · intro h f2 hf2
            rcases List.mem_cons.mp hf2 with h2 | h2
            · subst h2
              simp [hpc, isOk_ok]
            · exact h f2 h2
          · intro h f2 hf2
            exact h f2 (List.mem_cons_of_mem _ hf2)
  · intro p rows
    induction rows with
    | nil =>
      intro records h
      rw [parse_csv] at h
      injection h with h2
      rw [← h2]
      rfl
    | cons row rest ih =>
      intro records h
      rw [parse_csv] at h
      rcases hd : parse_date (trimStr row.date) with e | dateObj
      · rw [hd] at h
        exact Except.noConfusion h
      · rw [hd] at h
        rcases ha : parse_amount (trimStr row.amount) with _ | amt
        · rw [ha] at h
          exact Except.noConfusion h
        · rw [ha] at h
          rcases hrest : parse_csv p rest with e | tailRecords
          · rw [hrest] at h
            exact Except.noConfusion h
          · rw [hrest] at h
            injection h with h2
            rw [← h2]
            simp [ih tailRecords hrest]
  · intro p rows
    induction rows with
    | nil => simp [parse_csv, isOk_ok]
    | cons row rest ih =>
      rw [parse_csv]
      rcases hd : parse_date (trimStr row.date) with e | dateObj
      · simp only [hd, isOk_error]
        constructor
        · intro hfalse
          exact absurd hfalse (by decide)
        · intro hall
          have h1 := (hall row (List.mem_cons_self row rest)).1
          rw [hd, isOk_error] at h1
          exact absurd h1 (by decide)
      · rcases ha : parse_amount (trimStr row.amount) with _ | amt
        · simp only [hd, ha, isOk_error]
          constructor
          · intro hfalse
            exact absurd hfalse (by decide)
          · intro hall
            have h1 := (hall row (List.mem_cons_self row rest)).2
            rw [ha] at h1
            exact absurd h1 (by decide)
        · rcases hrest : parse_csv p rest with e | tailRecords
          · simp only [hd, ha, hrest]
            rw [hrest] at ih
            simp only [isOk_error] at ih ⊢
            constructor
            · intro hfalse
              exact absurd hfalse (by decide)
            · intro hall
              have h1 := (Iff.mpr ih ?_)
              · exact absurd h1 (by decide)
              · intro row2 hrow2
                exact hall row2 (List.mem_cons_of_mem _ hrow2)
          · simp only [hd, ha, hrest]
            rw [hrest] at ih
            simp only [isOk_ok, true_iff] at ih
            simp only [isOk_ok, true_iff]
            intro row2 hrow2
            rcases List.mem_cons.mp hrow2 with h2 | h2
            · subst h2
              rw [hd, ha]
              exact ⟨rfl, rfl⟩
            · exact ih row2 h2

/-- C4 witness: one concrete file parses to exactly one record per row. -/
theorem load_transactions_spec_witness :
    parse_csv "a.csv" [{ date := "09/01/2025", description := "Test Merchant", amount := "5" }] =
      Except.ok [{ date := { year := 2025, month := 9, day := 1 },
                   description := "Test Merchant", amount := (5 : ℚ),
                   source_file := some "a.csv" }] ∧
    ([{ date := { year := 2025, month := 9, day := 1 }, description := "Test Merchant",
                  amount := (5 : ℚ), source_file := some "a.csv" }] : List ExpenseRecord).length =
      [({ date := "09/01/2025", description := "Test Merchant", amount := "5" } : CsvRow)].length :=
  ⟨by decide,
    load_transactions_spec.2.1 "a.csv" _ _ (by decide)⟩

/-- dropWhile is the identity when no character satisfies the test. -/
lemma dropWhile_of_neg (p : Char → Bool) : ∀ l : List Char, (∀ c ∈ l, p c = false) →
    l.dropWhile p = l
  | [], _ => rfl
  | x :: xs, h => by
    rw [List.dropWhile_cons, if_neg (by simp [h x (List.mem_cons_self x xs)])]

/-- Stripping whitespace from a whitespace-free string changes nothing. -/
lemma trimChars_of_no_ws (l : List Char) (h : ∀ c ∈ l, isStripSpace c = false) :
    trimChars l = l := by
  rw [trimChars, dropWhile_of_neg _ _ h,
    dropWhile_of_neg _ _ (fun c hc => h c (List.mem_reverse.mp hc))]
  exact List.reverse_reverse l

/-- The parenthesis branch of `_parse_amount`: an outer-parenthesized input
is parsed as the minus-prefixed, comma-stripped enclosed characters fed to
`float()`. -/
lemma parse_amount_full_paren (u : List Char) :
    parse_amount_full (String.mk ('(' :: u ++ [')'])) = pythonFloat ('-' :: stripCommas u) := by
  show pythonFloat (parenNormalize (stripCommas ('(' :: u ++ [')']))) = _
  rw [stripCommas_paren, parenNormalize_wrap]

/-- C8 amended: amount parsing strips all commas, then replaces an
outer-parenthesized value by a minus sign followed by the enclosed
characters, and hands the result to Python float(), which accepts finite
decimals (with optional underscore grouping and surrounding whitespace) AND
the non-finite spellings inf/infinity/nan without error — so a
whitespace-free enclosed decimal x yields -x, 1,234.56 parses to 1234.56,
(50.00) parses to -50.00, strings float() rejects fail with a parse error,
but non-finite inputs parse successfully to non-finite values. -/
theorem parse_amount_float_spec :
    (∀ u : List Char,
      parse_amount_full (String.mk ('(' :: u ++ [')'])) = pythonFloat ('-' :: stripCommas u)) ∧
    (∀ (u : List Char) (x : ℚ), (∀ c ∈ u, isStripSpace c = false) →
      pyNumber (stripCommas u) = some x →
      parse_amount_full (String.mk ('(' :: u ++ [')'])) = some (PyFloat.finite (-x))) ∧
    parse_amount_full "1,234.56" = some (PyFloat.finite 1234.56) ∧
    parse_amount_full "(50.00)" = some (PyFloat.finite (-50)) ∧
    parse_amount_full "inf" = some (PyFloat.inf false) ∧
    parse_amount_full "-Infinity" = some (PyFloat.inf true) ∧
    parse_amount_full "nan" = some PyFloat.nan ∧
    parse_amount_full "1_234.56" = some (PyFloat.finite 1234.56) ∧
    parse_amount_full " -50 " = some (PyFloat.finite (-50)) ∧
    parse_amount_full "abc" = none ∧
    parse_amount_full "12.3.4" = none := by
  refine ⟨parse_amount_full_paren, ?_, ?_, ?_, by decide, by decide, by decide, ?_,
    by decide, by decide, by decide⟩
  · intro u x hws h
    rw [parse_amount_full_paren u]
    have hm : ∀ c ∈ ('-' :: stripCommas u), isStripSpace c = false := by
      intro c hc
      rcases List.mem_cons.mp hc with rfl | hc
      · decide
      · exact hws c (List.mem_of_mem_filter hc)
    rw [pythonFloat, trimChars_of_no_ws _ hm]
    show (pyUnsigned (stripCommas u)).map pyNeg = some (PyFloat.finite (-x))
    simp only [pyUnsigned, h]
    rfl
  · have h : parenNormalize (stripCommas "1,234.56".data) = ['1','2','3','4','.','5','6'] := by
      decide
    rw [parse_amount_full, h]
    have h2 : trimChars ['1','2','3','4','.','5','6'] = ['1','2','3','4','.','5','6'] := by decide
    rw [pythonFloat, h2]
    simp +decide [pySigned, pyUnsigned, pyNumber, normalizeE, pyMantissa, splitOnChar,
      digitRunOk, runDigits, charsToNat, digitVal]
    norm_num
  · have h : parenNormalize (stripCommas "(50.00)".data) = ['-','5','0','.','0','0'] := by decide
    rw [parse_amount_full, h]
    have h2 : trimChars ['-','5','0','.','0','0'] = ['-','5','0','.','0','0'] := by decide
    rw [pythonFloat, h2]
    simp +decide [pySigned, pyUnsigned, pyNumber, normalizeE, pyMantissa, splitOnChar,
      digitRunOk, runDigits, charsToNat, digitVal, pyNeg]
  · have h : parenNormalize (stripCommas "1_234.56".data) = ['1','_','2','3','4','.','5','6'] := by
      decide
    rw [parse_amount_full, h]
    have h2 : trimChars ['1','_','2','3','4','.','5','6'] = ['1','_','2','3','4','.','5','6'] := by
      decide
    rw [pythonFloat, h2]
    simp +decide [pySigned, pyUnsigned, pyNumber, normalizeE, pyMantissa, splitOnChar,
      digitRunOk, runDigits, charsToNat, digitVal]
    norm_num

/-- C8 counterexample: the input inf parses successfully to a non-finite
value with no parse error, refuting the claim that the result must parse as
a finite decimal or parsing fails. -/
theorem parse_amount_accepts_nonfinite :
    parse_amount_full "inf" = some (PyFloat.inf false) ∧
    (PyFloat.inf false).isFinite = false ∧
    (parse_amount_full "inf").isSome = true := by decide

/-- C8 witness: the parenthesis-negation clause applied to the enclosed
value 50. -/
theorem parse_amount_float_spec_witness :
    parse_amount_full (String.mk ('(' :: "50".data ++ [')'])) = some (PyFloat.finite (-(50 : ℚ))) :=
  parse_amount_float_spec.2.1 "50".data 50 (by decide) (by decide)
